import Mathlib

/-!
Shallow embedding of the riak-nodejs-client sources under verification:
`src/lib/commands/kv/fetchvalue.js` (the FetchValue command, its wire
framing, response handling and validation schema) and the `ListBuckets`
command in `src/unnamed/part_000`.

Buffers are modelled as lists of byte values (`Nat`, kept below 256 by
construction); callbacks are modelled by returning the list of invocations
(each invocation being the list of JavaScript argument values it received).
-/

namespace Riak

/-- A Node `Buffer` is modelled as a list of byte values. -/
abbrev Buffer := List Nat

/-- Big-endian 4-byte encoding of a 32-bit value (the byte content written
by `buffer.writeInt32BE` for an in-range non-negative value). -/
def int32BE (v : Nat) : List Nat :=
  [v / 2 ^ 24 % 256, v / 2 ^ 16 % 256, v / 2 ^ 8 % 256, v % 256]

/-- The numeric value of a big-endian byte sequence (how a reader decodes
the 4-byte length field of a frame header). -/
def beValue (bs : List Nat) : Nat :=
  bs.foldl (fun acc b => acc * 256 + b) 0

/-- `buf.writeUInt8(value, offset)`: store one byte at `offset`.
Node range-checks the offset against the buffer length. -/
def writeUInt8 (buf : Buffer) (v : Nat) (idx : Nat) : Option Buffer :=
  if idx < buf.length then some (buf.set idx (v % 256)) else none

/-- `buf.writeInt32BE(value, offset)`: store the 4-byte big-endian encoding
of `value` at `offset`.  Node throws a range error when the value does not
fit a signed 32-bit integer or the bytes would fall outside the buffer;
that failure is modelled as `none`.  The values written by this client are
lengths, hence non-negative. -/
def writeInt32BE (buf : Buffer) (v : Nat) (idx : Nat) : Option Buffer :=
  if v ≤ 2 ^ 31 - 1 ∧ idx + 4 ≤ buf.length then
    some ((((buf.set idx (v / 2 ^ 24 % 256)).set (idx + 1) (v / 2 ^ 16 % 256)).set
      (idx + 2) (v / 2 ^ 8 % 256)).set (idx + 3) (v % 256))
  else none

/-! ### Protocol-buffer layer

`riakprotobuf.js` (the message registry) and the protobufjs runtime are
dependencies of the repository, not files under verification; they are
modelled here: the code registry by the fixed Riak protocol-buffer message
code table, and message serialization by the standard protobuf wire
encoding (varints, length-delimited fields) of the fields `RpbGetReq`
carries. -/

/-- Modelled from the spec: message codes are fixed identifiers of the
higher-level protocol ("Reserved message code" and command-owned
request/response codes, spec section 6); `riakprotobuf.getCodeFor` is not
under `src/`.  This is the Riak protocol-buffer code table for the
messages these commands use. -/
def getCodeFor (name : String) : Nat :=
  if name = "RpbErrorResp" then 0
  else if name = "RpbGetReq" then 9
  else if name = "RpbGetResp" then 10
  else if name = "RpbListBucketsReq" then 15
  else if name = "RpbListBucketsResp" then 16
  else 0

/-- `var requestCode = ...getCodeFor('RpbGetReq')` (fetchvalue.js line 18). -/
def requestCode : Nat := getCodeFor "RpbGetReq"

/-- `var expectedCode = ...getCodeFor('RpbGetResp')` (fetchvalue.js line 19). -/
def expectedCode : Nat := getCodeFor "RpbGetResp"

/-- Little-endian base-128 varint encoding (protobuf wire format). -/
def varint (n : Nat) : List Nat :=
  if h : n < 128 then [n]
  else (n % 128 + 128) :: varint (n / 128)
termination_by n
decreasing_by
  exact Nat.div_lt_self (lt_of_lt_of_le (by norm_num) (le_of_not_lt h)) (by norm_num)

/-- A protobuf varint-typed field: tag byte(s) then the value. -/
def varintField (fieldNum : Nat) (v : Nat) : List Nat :=
  varint (fieldNum * 8) ++ varint v

/-- A protobuf length-delimited field: tag, length, payload bytes. -/
def lenField (fieldNum : Nat) (bs : List Nat) : List Nat :=
  varint (fieldNum * 8 + 2) ++ varint bs.length ++ bs

/-- A protobuf optional boolean field. -/
def boolField (fieldNum : Nat) (b : Bool) : List Nat :=
  varintField fieldNum (if b then 1 else 0)

/-- The `RpbGetReq` protobuf message with the fields `FetchValue`'s
constructor sets (fetchvalue.js lines 71-99).  `none` means the optional
field was never set. -/
structure RpbGetReq where
  bucket : Buffer := []
  key : Buffer := []
  r : Option Nat := none
  pr : Option Nat := none
  basicQuorum : Option Bool := none
  notfoundOk : Option Bool := none
  ifModified : Option Buffer := none
  head : Option Bool := none
  deletedvclock : Option Bool := none
  timeout : Option Nat := none
  type : Buffer := []
deriving DecidableEq

/-- `protobuf.encode().toBuffer()`: serialize an `RpbGetReq` to its wire
bytes, fields in riak.proto field-number order (bucket=1, key=2, r=3,
pr=4, basic_quorum=5, notfound_ok=6, if_modified=7, head=8,
deletedvclock=9, timeout=10, type=13). -/
def RpbGetReq.encode (m : RpbGetReq) : Buffer :=
  lenField 1 m.bucket ++ lenField 2 m.key ++
  (m.r.map (varintField 3)).getD [] ++
  (m.pr.map (varintField 4)).getD [] ++
  (m.basicQuorum.map (boolField 5)).getD [] ++
  (m.notfoundOk.map (boolField 6)).getD [] ++
  (m.ifModified.map (lenField 7)).getD [] ++
  (m.head.map (boolField 8)).getD [] ++
  (m.deletedvclock.map (boolField 9)).getD [] ++
  (m.timeout.map (varintField 10)).getD [] ++
  lenField 13 m.type

/-! ### FetchValue command state -/

/-- The mutable state of a `FetchValue` instance that its prototype methods
read: the protobuf request built by the constructor, the identifying
strings stored on `self`, and the 5-byte header buffer
(fetchvalue.js lines 101-114). -/
structure FetchValueCmd where
  protobufMessage : RpbGetReq
  bucket : String
  key : String
  bucketType : String
  streaming : Bool
  header : Buffer
  remainingTries : Nat
deriving DecidableEq

/-- The constructor's unconditional tail (fetchvalue.js lines 111-114):
`new Buffer(5)` returns five uninitialised bytes (`rawAlloc`), then
`header.writeUInt8(requestCode, 4)` stamps the request code into the last
cell.  `none` models the range error Node raises when the allocation is
not 5 bytes wide (it always is here: the argument is the literal 5). -/
def mkFetchValueState (pb : RpbGetReq) (bucket key bucketType : String)
    (rawAlloc : Buffer) : Option FetchValueCmd :=
  (writeUInt8 rawAlloc requestCode 4).map fun h =>
    { protobufMessage := pb, bucket := bucket, key := key,
      bucketType := bucketType, streaming := false, header := h,
      remainingTries := 1 }

/-- The value `getRiakMessage` returns: `{ protobuf: encoded, header: this.header }`. -/
structure RiakMessage where
  protobuf : Buffer
  header : Buffer
deriving DecidableEq

/-- `FetchValue.prototype.getRiakMessage` (fetchvalue.js lines 118-125):
encode the protobuf, write `encoded.length + 1` big-endian into the first
four header bytes, and return both buffers.  The returned state carries
the mutated header; `none` is the range error on an oversized payload. -/
def FetchValue.getRiakMessage (cmd : FetchValueCmd) :
    Option (RiakMessage × FetchValueCmd) :=
  let encoded := cmd.protobufMessage.encode
  (writeInt32BE cmd.header (encoded.length + 1) 0).map fun h =>
    ({ protobuf := encoded, header := h }, { cmd with header := h })

/-- `FetchValue.prototype.getExpectedResponseCode` (fetchvalue.js lines 126-128). -/
def FetchValue.getExpectedResponseCode (cmd : FetchValueCmd) : Nat :=
  expectedCode

/-! ### UTF-8 decoding

`buffer.toString('utf8')` decodes bytes as UTF-8, substituting U+FFFD for
malformed sequences. -/

/-- Is `b` a UTF-8 continuation byte (`10xxxxxx`)? -/
def isContByte (b : Nat) : Bool := 128 ≤ b && b < 192

/-- Decode a UTF-8 byte sequence to characters, one scalar value per
well-formed sequence and U+FFFD per malformed byte. -/
def utf8Chars : List Nat → List Char
  | [] => []
  | b0 :: rest =>
    if b0 < 128 then Char.ofNat b0 :: utf8Chars rest
    else if 194 ≤ b0 && b0 < 224 then
      match h1 : rest with
      | b1 :: rest1 =>
        if isContByte b1 then
          Char.ofNat ((b0 - 192) * 64 + (b1 - 128)) :: utf8Chars rest1
        else Char.ofNat 0xFFFD :: utf8Chars rest
      | [] => [Char.ofNat 0xFFFD]
    else if 224 ≤ b0 && b0 < 240 then
      match h2 : rest with
      | b1 :: b2 :: rest2 =>
        if isContByte b1 && isContByte b2 then
          let cp := (b0 - 224) * 4096 + (b1 - 128) * 64 + (b2 - 128)
          if 2048 ≤ cp && !(55296 ≤ cp && cp < 57344) then
            Char.ofNat cp :: utf8Chars rest2
          else Char.ofNat 0xFFFD :: utf8Chars rest
        else Char.ofNat 0xFFFD :: utf8Chars rest
      | _ => Char.ofNat 0xFFFD :: utf8Chars rest
    else if 240 ≤ b0 && b0 < 245 then
      match h3 : rest with
      | b1 :: b2 :: b3 :: rest3 =>
        if isContByte b1 && isContByte b2 && isContByte b3 then
          let cp := (b0 - 240) * 262144 + (b1 - 128) * 4096 +
            (b2 - 128) * 64 + (b3 - 128)
          if 65536 ≤ cp && cp < 1114112 then
            Char.ofNat cp :: utf8Chars rest3
          else Char.ofNat 0xFFFD :: utf8Chars rest
        else Char.ofNat 0xFFFD :: utf8Chars rest
      | _ => Char.ofNat 0xFFFD :: utf8Chars rest
    else Char.ofNat 0xFFFD :: utf8Chars rest
termination_by bs => bs.length
decreasing_by
  all_goals simp_wf
  all_goals subst_vars
  all_goals simp_arith [List.length_cons]

/-- `buffer.toString('utf8')` as a `String`. -/
def utf8Decode (bs : Buffer) : String :=
  String.mk (utf8Chars bs)

/-! ### Decoded responses and callback traces -/

/-- One element of `RpbGetResp.content`: the stored value plus the opaque
metadata fields `RiakMeta.extractMetaFromRpbContent` reads. -/
structure RpbContent where
  value : Buffer
  contentMeta : List (String × Buffer) := []
deriving DecidableEq

/-- A decoded `RpbGetResp` protobuf message. -/
structure RpbGetResp where
  content : List RpbContent
  vclock : Buffer
deriving DecidableEq

/-- A decoded `RpbErrorResp` protobuf message: its `errmsg` bytes. -/
structure RpbErrorResp where
  errmsg : Buffer
deriving DecidableEq

/-- Modelled from the spec: `riakmeta.js` (class `RiakMeta` and
`RiakMeta.extractMetaFromRpbContent`) is not under `src/`; the spec
treats per-command metadata decoding as command-internal business logic
(section 1, out of scope collaborators).  The fields are the ones
`fetchvalue.js` assigns (lines 148-151) plus the extraction inputs. -/
structure RiakMeta where
  isTombstone : Bool := false
  key : String := ""
  bucket : String := ""
  bucketType : String := ""
  extractedFrom : Option (RpbContent × Buffer) := none
deriving DecidableEq

/-- Modelled from the spec: `RiakMeta.extractMetaFromRpbContent(content,
vclock, bucketType, bucket, key)` builds the metadata object for one
sibling; modelled as packaging its inputs. -/
def extractMetaFromRpbContent (content : RpbContent) (vclock : Buffer)
    (bucketType bucket key : String) : RiakMeta :=
  { key := key, bucket := bucket, bucketType := bucketType,
    extractedFrom := some (content, vclock) }

/-- One `{value: ..., meta: ...}` pair handed to the callback. -/
structure RiakObject where
  value : Buffer
  meta : RiakMeta
deriving DecidableEq

/-- `FetchValue.Response` (fetchvalue.js lines 351-366).  The `values`
field comes from `KvResponseBase.call(this, rawResponse)`; modelled from
the spec: `kvresponsebase.js` is not under `src/`, and the response's
documented shape is the array of value/meta pairs it was built from. -/
structure Response where
  values : List RiakObject
  notFound : Bool
  unchanged : Bool
deriving DecidableEq

/-- `Response.prototype.isNotFound` (fetchvalue.js lines 360-362). -/
def Response.isNotFound (r : Response) : Bool := r.notFound

/-- `Response.prototype.isUnchanged` (fetchvalue.js lines 364-366). -/
def Response.isUnchanged (r : Response) : Bool := r.unchanged

/-- One JavaScript argument value passed to the `FetchValue` callback.
The source passes `null`, booleans, strings, `Response` objects, and (in
one branch) a raw value/meta array. -/
inductive FVArg where
  | jsNull : FVArg
  | jsBool : Bool → FVArg
  | jsStr : String → FVArg
  | resp : Response → FVArg
  | rawList : List RiakObject → FVArg
deriving DecidableEq

/-- A trace of callback invocations: each entry is the argument list of
one call to `this.callback`. -/
abbrev FVTrace := List (List FVArg)

/-- `FetchValue.prototype.onSuccess` (fetchvalue.js lines 129-168).
Input `none` is the null decoded payload (not-found).  Returns the
callback-invocation trace and the method's return value. -/
def FetchValue.onSuccess (cmd : FetchValueCmd) (rpbGetResp : Option RpbGetResp) :
    FVTrace × Bool :=
  let trace : FVTrace :=
    match rpbGetResp with
    | none =>
      [[FVArg.jsNull, FVArg.resp { values := [], notFound := true, unchanged := false }]]
    | some resp =>
      let pbContentArray := resp.content
      let vclock := resp.vclock
      if pbContentArray.length = 0 then
        let riakMeta : RiakMeta :=
          { isTombstone := true, key := cmd.key, bucket := cmd.bucket,
            bucketType := cmd.bucketType }
        let riakValue : Buffer := []
        [[FVArg.jsBool false, FVArg.jsBool false,
          FVArg.rawList [{ value := riakValue, meta := riakMeta }]]]
      else
        let values := pbContentArray.map fun c =>
          { value := c.value,
            meta := extractMetaFromRpbContent c vclock cmd.bucketType
              cmd.bucket cmd.key : RiakObject }
        [[FVArg.jsNull, FVArg.resp { values := values, notFound := false, unchanged := false }]]
  (trace, true)

/-- `FetchValue.prototype.onError` (fetchvalue.js lines 172-174). -/
def FetchValue.onError (cmd : FetchValueCmd) (msg : String) : FVTrace :=
  [[FVArg.jsStr msg, FVArg.jsNull]]

/-- `FetchValue.prototype.onRiakError` (fetchvalue.js lines 169-171):
decode `errmsg` as UTF-8 and delegate to `onError`. -/
def FetchValue.onRiakError (cmd : FetchValueCmd) (rpbErrorResp : RpbErrorResp) :
    FVTrace :=
  FetchValue.onError cmd (utf8Decode rpbErrorResp.errmsg)

/-! ### The FetchValue module-level schema (fetchvalue.js lines 178-191)

The schema initializer runs when the module is loaded, before any
constructor call can validate against it.  JavaScript resolves each free
identifier of the initializer expression against the module scope; an
unbound identifier raises a `ReferenceError`. -/

/-- The identifiers bound in the fetchvalue.js module scope: the Node
module globals, the `var` requires (lines 17-23), the hoisted function
declarations, and the hoisted (still-undefined) `var schema`. -/
def fetchValueModuleScope : List String :=
  ["require", "module", "exports", "Buffer",
   "RpbGetReq", "requestCode", "expectedCode", "RiakMeta",
   "KvResponseBase", "inherits", "Joi",
   "FetchValue", "Builder", "Response", "schema"]

/-- The free identifiers of the schema initializer expression
`Joi.object().keys({ bucket: joi.string().required(), ... })`, in
JavaScript evaluation order: the callee chain starts from `Joi`, then the
argument object literal evaluates each property value in source order and
every one of the twelve validator chains starts from the lowercase
identifier `joi` (lines 179-190). -/
def schemaInitFreeIdents : List String :=
  ["Joi", "joi", "joi", "joi", "joi", "joi",
   "joi", "joi", "joi", "joi", "joi", "joi", "joi"]

/-- Resolve a list of identifier uses in order against a scope; the first
unbound one raises `ReferenceError: <name> is not defined`. -/
def resolveIdents (scope : List String) : List String → Except String Unit
  | [] => Except.ok ()
  | i :: rest =>
    if scope.contains i then resolveIdents scope rest
    else Except.error ("ReferenceError: " ++ i ++ " is not defined")

/-- Evaluating `var schema = Joi.object().keys({...})` at module load. -/
def schemaEval : Except String Unit :=
  resolveIdents fetchValueModuleScope schemaInitFreeIdents

/-- The options object accepted by the `FetchValue` constructor.  Field
values are irrelevant to construction because validation against the
schema can never be reached; only the shape is modelled. -/
structure FVOptions where
  bucket : Option String := none
  bucketType : Option String := none
  key : Option String := none
  timeout : Option Nat := none
deriving DecidableEq

/-- `new FetchValue(options)` (fetchvalue.js lines 62-115) as observed by a
caller: loading the module evaluates the schema initializer, and only then
could `Joi.validate(options, schema, ...)` run and the instance state be
built.  The error the schema evaluation raises propagates to every
attempt to construct through the public constructor. -/
def FetchValue.construct (options : FVOptions) (rawAlloc : Buffer) :
    Except String (Option FetchValueCmd) :=
  match schemaEval with
  | Except.error e => Except.error e
  | Except.ok _ =>
    Except.ok (mkFetchValueState
      { bucket := [], key := [], type := [] }
      (options.bucket.getD "") (options.key.getD "")
      (options.bucketType.getD "default") rawAlloc)

/-! ### ListBuckets (src/unnamed/part_000, lines 189-231) -/

/-- A decoded `RpbListBucketsResp` frame: bucket-name byte buffers and the
protocol's in-payload done signal (an optional protobuf bool, falsy when
unset; modelled as `Bool`). -/
structure RpbListBucketsResp where
  buckets : List Buffer
  done : Bool
deriving DecidableEq

/-- The raw options object passed to the `ListBuckets` constructor;
`none` means the property was absent. -/
structure LBOptions where
  allowListing : Option Bool := none
  bucketType : Option String := none
  stream : Option Bool := none
  timeout : Option Nat := none
deriving DecidableEq

/-- The options after `validateOptions(options, schema)` applied the Joi
schema (part_000 lines 233-238): `allowListing` defaults to `false`,
`bucketType` to `'default'`, `stream` to `true`, `timeout` to `null`.
`validateOptions` itself lives in `commandbase.js`, not under `src/`;
modelled from the spec's boundary description of per-command option
validation and schema defaults (section 1). -/
structure LBValidatedOptions where
  allowListing : Bool
  bucketType : String
  stream : Bool
  timeout : Option Nat
deriving DecidableEq

/-- Apply the ListBuckets Joi schema defaults to the raw options. -/
def applyLBSchema (o : LBOptions) : LBValidatedOptions :=
  { allowListing := o.allowListing.getD false,
    bucketType := o.bucketType.getD "default",
    stream := o.stream.getD true,
    timeout := o.timeout }

/-- The instance state of a `ListBuckets` command: its validated options
and the accumulator `this.buckets`.  In stream mode the source never
creates `this.buckets` (it stays `undefined` and is never read); the
untouched empty list stands in for `undefined`. -/
structure ListBucketsState where
  options : LBValidatedOptions
  buckets : List String
deriving DecidableEq

/-- `new ListBuckets(options, callback)` (part_000 lines 189-198): apply
the schema, initialise the accumulator when not streaming, then throw
`errors.ListError()` unless `options.allowListing` is true. -/
def ListBuckets.construct (options : LBOptions) :
    Except String ListBucketsState :=
  let opts := applyLBSchema options
  let st : ListBucketsState := { options := opts, buckets := [] }
  if !opts.allowListing then Except.error "ListError"
  else Except.ok st

/-- One `this._callback(null, {...})` invocation made by
`ListBuckets.prototype.onSuccess`: its response object. -/
structure LBCallbackResponse where
  buckets : List String
  done : Bool
deriving DecidableEq

/-- `ListBuckets.prototype.onSuccess` (part_000 lines 213-231): decode the
bucket names as UTF-8; in stream mode fire the callback with this frame's
names, otherwise accumulate and fire only on the done frame with
everything accumulated; return the frame's done flag.  Result:
(new state, callback invocations, return value). -/
def ListBuckets.onSuccess (st : ListBucketsState)
    (rpbListBucketsResp : RpbListBucketsResp) :
    ListBucketsState × List LBCallbackResponse × Bool :=
  let bucketsToSend := rpbListBucketsResp.buckets.map utf8Decode
  if st.options.stream then
    (st, [{ buckets := bucketsToSend, done := rpbListBucketsResp.done }],
      rpbListBucketsResp.done)
  else
    let st1 : ListBucketsState := { st with buckets := st.buckets ++ bucketsToSend }
    if rpbListBucketsResp.done then
      (st1, [{ buckets := st1.buckets, done := rpbListBucketsResp.done }],
        rpbListBucketsResp.done)
    else
      (st1, [], rpbListBucketsResp.done)

/-- Deliver a sequence of decoded response frames to a `ListBuckets`
command in order, collecting every callback invocation. -/
def ListBuckets.runFrames (st : ListBucketsState)
    (frames : List RpbListBucketsResp) :
    ListBucketsState × List LBCallbackResponse :=
  match frames with
  | [] => (st, [])
  | f :: rest =>
    let r := ListBuckets.onSuccess st f
    let tail := ListBuckets.runFrames r.1 rest
    (tail.1, r.2.1 ++ tail.2)

/-! ## Theorems -/

/-- C4: FetchValue is a single-shot command: for every decoded response
frame it receives (including the null not-found payload),
`FetchValue.onSuccess` returns `true`, i.e. its classify step is terminal
on the first frame. -/
theorem fetchValue_onSuccess_always_terminal (cmd : FetchValueCmd)
    (rpbGetResp : Option RpbGetResp) :
    (FetchValue.onSuccess cmd rpbGetResp).2 = true := rfl

/-- C3: ListBuckets is a streaming command whose classification follows the
in-payload done signal: for every decoded `RpbListBucketsResp` frame,
`ListBuckets.onSuccess` returns that frame's done flag, so the exchange is
declared terminal exactly when the payload's done signal is set and
partial otherwise. -/
theorem listBuckets_onSuccess_returns_done (st : ListBucketsState)
    (rpbListBucketsResp : RpbListBucketsResp) :
    (ListBuckets.onSuccess st rpbListBucketsResp).2.2 = rpbListBucketsResp.done := by
  unfold ListBuckets.onSuccess
  split
  · rfl
  · split <;> rfl

/-- C5: when a reserved error-response frame is delivered to a FetchValue
command, `FetchValue.onRiakError` decodes the error payload's message
field as a UTF-8 string and invokes the completion callback exactly once,
with that string as the error argument and null as the result argument. -/
theorem fetchValue_onRiakError_utf8_message (cmd : FetchValueCmd)
    (rpbErrorResp : RpbErrorResp) :
    FetchValue.onRiakError cmd rpbErrorResp =
      [[FVArg.jsStr (utf8Decode rpbErrorResp.errmsg), FVArg.jsNull]] := rfl

/-- C8: when `FetchValue.onSuccess` receives a null decoded response, the
callback is invoked once with a null error and a `Response` for which
`isNotFound` returns true, `isUnchanged` returns false, and the values
array is empty. -/
theorem fetchValue_null_response_not_found (cmd : FetchValueCmd) :
    ∃ r : Response,
      FetchValue.onSuccess cmd none = ([[FVArg.jsNull, FVArg.resp r]], true) ∧
      r.isNotFound = true ∧ r.isUnchanged = false ∧ r.values = [] :=
  ⟨{ values := [], notFound := true, unchanged := false }, rfl, rfl, rfl, rfl⟩

/-- C10: every FetchValue instance supplies a fixed expected response
message code: `getExpectedResponseCode` returns the protocol code
registered for `RpbGetResp`, the same constant value for every instance
and every call. -/
theorem fetchValue_expected_response_code (cmd : FetchValueCmd) :
    FetchValue.getExpectedResponseCode cmd = getCodeFor "RpbGetResp" ∧
    ∀ cmd1 : FetchValueCmd,
      FetchValue.getExpectedResponseCode cmd1 =
        FetchValue.getExpectedResponseCode cmd :=
  ⟨rfl, fun _ => rfl⟩

/-- C6: constructing a FetchValue raises a reference error for every
options value, because the module-level validation schema is built from
the unbound lowercase identifier `joi` instead of the imported `Joi`, so
no FetchValue command can ever be successfully built through the public
constructor. -/
theorem fetchValue_construct_reference_error (options : FVOptions)
    (rawAlloc : Buffer) :
    fetchValueModuleScope.contains "joi" = false ∧
    FetchValue.construct options rawAlloc =
      Except.error "ReferenceError: joi is not defined" :=
  ⟨rfl, rfl⟩

/-- C2 (counter-evidence): on the tombstone-only content list (a decoded
`RpbGetResp` whose content array is empty), `FetchValue.onSuccess` invokes
the callback once, but with `false` — not null — as the error argument and
no `FetchValue.Response` among its arguments: the result argument is also
`false` and the value/meta array is passed raw as a third argument. -/
theorem fetchValue_tombstone_branch_violation :
    ∃ args : List FVArg,
      (FetchValue.onSuccess
        { protobufMessage := {}, bucket := "b", key := "k", bucketType := "t",
          streaming := false, header := [0, 0, 0, 0, 9], remainingTries := 1 }
        (some { content := [], vclock := [1] })).1 = [args] ∧
      args.head? = some (FVArg.jsBool false) ∧
      args.head? ≠ some FVArg.jsNull ∧
      ∀ r : Response, FVArg.resp r ∉ args := by
  refine ⟨_, rfl, rfl, by simp, ?_⟩
  intro r
  simp [FetchValue.onSuccess]

/-- Reading the four bytes of `int32BE v` big-endian recovers `v` for any
32-bit value. -/
theorem beValue_int32BE (v : Nat) (h : v < 2 ^ 32) :
    beValue (int32BE v) = v := by
  simp only [beValue, int32BE, List.foldl]
  norm_num
  omega

/-- Evaluation of `getRiakMessage` on a command whose header has at least
four cells: the first four bytes are overwritten with the big-endian
length and the rest of the header is untouched. -/
theorem getRiakMessage_eq (pb : RpbGetReq) (bk k bt : String) (s : Bool)
    (a b c d : Nat) (t : List Nat) (rt : Nat)
    (hfit : pb.encode.length + 1 ≤ 2 ^ 31 - 1) :
    FetchValue.getRiakMessage ⟨pb, bk, k, bt, s, a :: b :: c :: d :: t, rt⟩ =
      some ({ protobuf := pb.encode,
              header := int32BE (pb.encode.length + 1) ++ t },
            ⟨pb, bk, k, bt, s, int32BE (pb.encode.length + 1) ++ t, rt⟩) := by
  simp [FetchValue.getRiakMessage, writeInt32BE, hfit, int32BE, List.set]
  omega

/-- C1: for every FetchValue command, the encoded outgoing frame returned
by `getRiakMessage` consists of a 5-byte header whose first 4 bytes are
the big-endian encoding of (encoded protobuf payload length + 1) and whose
5th byte is the request message code, followed by the payload; the length
field exactly equals 1 + payload byte count. -/
theorem fetchValue_frame_layout (pb : RpbGetReq) (bucket key bucketType : String)
    (rawAlloc : Buffer) (cmd : FetchValueCmd)
    (h5 : rawAlloc.length = 5)
    (hmk : mkFetchValueState pb bucket key bucketType rawAlloc = some cmd)
    (hfit : pb.encode.length + 1 ≤ 2 ^ 31 - 1) :
    ∃ msg cmd1, FetchValue.getRiakMessage cmd = some (msg, cmd1) ∧
      msg.protobuf = pb.encode ∧
      msg.header = int32BE (msg.protobuf.length + 1) ++ [requestCode] ∧
      msg.header.length = 5 ∧
      beValue (msg.header.take 4) = msg.protobuf.length + 1 := by
  have hreq : requestCode % 256 = requestCode := rfl
  rcases rawAlloc with _ | ⟨a, _ | ⟨b, _ | ⟨c, _ | ⟨d, _ | ⟨e, t⟩⟩⟩⟩⟩ <;>
    simp only [List.length_cons, List.length_nil] at h5 <;> try omega
  have ht : t = [] := by
    cases t
    · rfl
    · simp at h5
  subst ht
  have hsome : mkFetchValueState pb bucket key bucketType [a, b, c, d, e] =
      some ⟨pb, bucket, key, bucketType, false, [a, b, c, d, requestCode], 1⟩ := by
    simp [mkFetchValueState, writeUInt8, List.set, hreq]
  rw [hsome] at hmk
  obtain rfl : (⟨pb, bucket, key, bucketType, false, [a, b, c, d, requestCode], 1⟩ :
      FetchValueCmd) = cmd := Option.some.inj hmk
  rw [show (a :: b :: c :: d :: requestCode :: [] : List Nat) =
    a :: b :: c :: d :: [requestCode] from rfl, getRiakMessage_eq _ _ _ _ _ _ _ _ _ _ _ hfit]
  refine ⟨_, _, rfl, rfl, rfl, ?_, ?_⟩
  · simp [int32BE]
  · have h32 : pb.encode.length + 1 < 2 ^ 32 := by
      have : (2 : Nat) ^ 31 - 1 < 2 ^ 32 := by norm_num
      omega
    simpa [int32BE, List.take] using beValue_int32BE (pb.encode.length + 1) h32

/-- C1 witness: the frame layout at a concrete FetchValue instance. -/
theorem fetchValue_frame_layout_witness :
    ∃ msg cmd1,
      FetchValue.getRiakMessage
        { protobufMessage := { bucket := [98], key := [107], type := [100] },
          bucket := "b", key := "k", bucketType := "t", streaming := false,
          header := [17, 17, 17, 17, 9], remainingTries := 1 } = some (msg, cmd1) ∧
      msg.protobuf = RpbGetReq.encode { bucket := [98], key := [107], type := [100] } ∧
      msg.header = int32BE (msg.protobuf.length + 1) ++ [requestCode] ∧
      msg.header.length = 5 ∧
      beValue (msg.header.take 4) = msg.protobuf.length + 1 :=
  fetchValue_frame_layout { bucket := [98], key := [107], type := [100] }
    "b" "k" "t" [17, 17, 17, 17, 17] _ (by rfl) (by rfl)
    (by simp [RpbGetReq.encode, lenField, varintField, varint])

/-- C9: FetchValue's encode is one-shot and deterministic: two successive
calls to `getRiakMessage` return byte-for-byte identical header and
payload buffers. -/
theorem fetchValue_getRiakMessage_repeatable (cmd : FetchValueCmd)
    (hfit : cmd.protobufMessage.encode.length + 1 ≤ 2 ^ 31 - 1)
    (hhdr : 4 ≤ cmd.header.length) :
    ∃ m1 cmd1 m2 cmd2,
      FetchValue.getRiakMessage cmd = some (m1, cmd1) ∧
      FetchValue.getRiakMessage cmd1 = some (m2, cmd2) ∧
      m2 = m1 := by
  obtain ⟨pb, bk, k, bt, s, hd, rt⟩ := cmd
  rcases hd with _ | ⟨a, _ | ⟨b, _ | ⟨c, _ | ⟨d, t⟩⟩⟩⟩ <;>
    simp only [List.length_cons, List.length_nil] at hhdr <;> try omega
  have hfit1 : pb.encode.length + 1 ≤ 2 ^ 31 - 1 := hfit
  have h1 := getRiakMessage_eq pb bk k bt s a b c d t rt hfit1
  have h2 := getRiakMessage_eq pb bk k bt s
    ((pb.encode.length + 1) / 2 ^ 24 % 256) ((pb.encode.length + 1) / 2 ^ 16 % 256)
    ((pb.encode.length + 1) / 2 ^ 8 % 256) ((pb.encode.length + 1) % 256) t rt hfit1
  exact ⟨_, _, _, _, h1, h2, rfl⟩

/-- C9 witness: re-encoding a concrete FetchValue instance returns the
identical message. -/
theorem fetchValue_getRiakMessage_repeatable_witness :
    ∃ m1 cmd1 m2 cmd2,
      FetchValue.getRiakMessage
        { protobufMessage := {}, bucket := "b", key := "k", bucketType := "t",
          streaming := false, header := [0, 0, 0, 0, 9], remainingTries := 1 } =
        some (m1, cmd1) ∧
      FetchValue.getRiakMessage cmd1 = some (m2, cmd2) ∧
      m2 = m1 :=
  fetchValue_getRiakMessage_repeatable _
    (by simp [RpbGetReq.encode, lenField, varintField, varint]) (by simp)

/-- In accumulate mode, frames whose done signal is unset fire no callback
and only extend the accumulator. -/
theorem runFrames_no_done_accumulates (opts : LBValidatedOptions)
    (hstream : opts.stream = false) (acc : List String)
    (frames : List RpbListBucketsResp)
    (hmid : ∀ f ∈ frames, f.done = false) :
    ListBuckets.runFrames ⟨opts, acc⟩ frames =
      (⟨opts, acc ++ (frames.map (fun f => f.buckets.map utf8Decode)).flatten⟩,
        []) := by
  induction frames generalizing acc with
  | nil => simp [ListBuckets.runFrames]
  | cons f rest ih =>
    have hf : f.done = false := hmid f (List.mem_cons_self f rest)
    have hrest : ∀ g ∈ rest, g.done = false := fun g hg =>
      hmid g (List.mem_cons_of_mem f hg)
    simp [ListBuckets.runFrames, ListBuckets.onSuccess, hstream, hf,
      ih _ hrest, List.append_assoc]

/-- Delivering a concatenation of frame lists composes the runs. -/
theorem runFrames_append (st : ListBucketsState)
    (xs ys : List RpbListBucketsResp) :
    ListBuckets.runFrames st (xs ++ ys) =
      ((ListBuckets.runFrames (ListBuckets.runFrames st xs).1 ys).1,
        (ListBuckets.runFrames st xs).2 ++
          (ListBuckets.runFrames (ListBuckets.runFrames st xs).1 ys).2) := by
  induction xs generalizing st with
  | nil => simp [ListBuckets.runFrames]
  | cons x xs ih => simp [ListBuckets.runFrames, ih, List.append_assoc]

/-- C7: in accumulate (non-stream) mode, for every sequence of
`RpbListBucketsResp` frames whose last frame alone has done = true,
ListBuckets invokes its callback exactly once — on that last frame — with
the concatenation of all bucket names from every frame in arrival order;
no callback fires on frames with done unset.  The constructor throws a
ListError whenever `options.allowListing` is not true. -/
theorem listBuckets_accumulate_exactly_once
    (options : LBOptions) (st0 : ListBucketsState)
    (hstream : options.stream = some false)
    (hctor : ListBuckets.construct options = Except.ok st0)
    (frames : List RpbListBucketsResp) (last : RpbListBucketsResp)
    (hmid : ∀ f ∈ frames, f.done = false) (hlast : last.done = true) :
    ((ListBuckets.runFrames st0 frames).2 = [] ∧
      (ListBuckets.runFrames st0 (frames ++ [last])).2 =
        [{ buckets := ((frames ++ [last]).map
            (fun f => f.buckets.map utf8Decode)).flatten, done := true }]) ∧
    ∀ o : LBOptions, o.allowListing ≠ some true →
      ListBuckets.construct o = Except.error "ListError" := by
  have hstream1 : (applyLBSchema options).stream = false := by
    simp [applyLBSchema, hstream]
  have hst0 : st0 = ⟨applyLBSchema options, []⟩ := by
    by_cases hA : (applyLBSchema options).allowListing <;>
      simp [ListBuckets.construct, hA] at hctor
    exact hctor.symm
  subst hst0
  refine ⟨⟨?_, ?_⟩, ?_⟩
  · rw [runFrames_no_done_accumulates _ hstream1 _ _ hmid]
  · rw [runFrames_append, runFrames_no_done_accumulates _ hstream1 _ _ hmid]
    simp [ListBuckets.runFrames, ListBuckets.onSuccess, hstream1, hlast]
  · intro o ho
    have hfalse : (applyLBSchema o).allowListing = false := by
      cases h : o.allowListing with
      | none => simp [applyLBSchema, h]
      | some b =>
        cases b with
        | false => simp [applyLBSchema, h]
        | true => exact absurd h ho
    simp [ListBuckets.construct, hfalse]

/-- C7 witness: a concrete accumulate-mode run over two frames, the second
carrying the done signal. -/
theorem listBuckets_accumulate_exactly_once_witness :
    ((ListBuckets.runFrames ⟨⟨true, "default", false, none⟩, []⟩
        [⟨[[97]], false⟩]).2 = [] ∧
      (ListBuckets.runFrames ⟨⟨true, "default", false, none⟩, []⟩
        ([⟨[[97]], false⟩] ++ [⟨[[98]], true⟩])).2 =
        [{ buckets := (([⟨[[97]], false⟩] ++
            [⟨[[98]], true⟩] : List RpbListBucketsResp).map
            (fun f => f.buckets.map utf8Decode)).flatten, done := true }]) ∧
    ∀ o : LBOptions, o.allowListing ≠ some true →
      ListBuckets.construct o = Except.error "ListError" :=
  listBuckets_accumulate_exactly_once
    { allowListing := some true, stream := some false } _ rfl rfl
    [⟨[[97]], false⟩] ⟨[[98]], true⟩ (by decide) rfl

end Riak
